import Mathlib

/-!
Verification of the incremental comment-collection engine of the
tiktok-comment-harvester repository, shallowly embedded in Lean.

Embedded components:
* `filter_duplicate_comments` — src/app/ui/pages/crawler.py:169-193
* `format_number`             — src/app/utils/helpers.py:134-166
* `load_all_comments`         — src/app/crawler/tiktok_crawler.py:796-881
  (the scroll loop over an abstract DOM, given as the per-round rendered count)
* `extract_comments`          — src/app/crawler/tiktok_crawler.py:884-1025
  (the record extractor over an abstract list of rendered containers)
* `CaptchaMonitor`            — src/app/crawler/captcha_monitor.py
  (the monitor loop and its external signals as a labelled transition system)
-/

/-- Comment record, embedding the dicts built by `extract_comments`
(tiktok_crawler.py:947-954 for top-level, 996-1004 for replies).
`replies_count` is `none` for reply records, whose dicts lack the key;
`is_reply` is the value `dict.get("is_reply", False)` reads; `parent_comment_username`
is `none` when the key is absent (top-level records). The `crawled_at` wall-clock
field is not modelled (no claim depends on it). -/
structure CommentRecord where
  username : String
  comment_text : String
  likes : String
  comment_time : String
  replies_count : Option String
  is_reply : Bool
  parent_comment_username : Option String
deriving DecidableEq, Repr

/-- Deduplication key built at crawler.py:185: the single string
`f"{username}:{comment_text}"`. -/
def commentKey (r : CommentRecord) : String :=
  r.username ++ ":" ++ r.comment_text

/-- Loop of `filter_duplicate_comments` (crawler.py:183-190): the Python `set`
of already-processed keys is embedded as the list `seen`. -/
def filterDupAux (seen : List String) : List CommentRecord → List CommentRecord
  | [] => []
  | r :: rest =>
    if commentKey r ∈ seen then filterDupAux seen rest
    else r :: filterDupAux (commentKey r :: seen) rest

/-- `filter_duplicate_comments` (crawler.py:169-193): keeps the first record for
each dedup key, in input order. -/
def filter_duplicate_comments (xs : List CommentRecord) : List CommentRecord :=
  filterDupAux [] xs

/-- First-occurrence filter, stated independently of the seen-set algorithm:
keep the head, then recurse on the tail purged of records carrying the head's key. -/
def keepFirstBy (key : CommentRecord → String) : List CommentRecord → List CommentRecord
  | [] => []
  | r :: rest => r :: keepFirstBy key (rest.filter (fun r2 => key r2 ≠ key r))
termination_by xs => xs.length
decreasing_by
  simp only [List.length_cons]
  exact Nat.lt_succ_of_le (List.length_filter_le _ _)

/-- First-occurrence filter by the exact (username, comment_text) pair, following
the specification wording of the dedup identity (for comparison with the
string-key implementation). -/
def keepFirstByPair : List CommentRecord → List CommentRecord
  | [] => []
  | r :: rest =>
    r :: keepFirstByPair (rest.filter
      (fun r2 => ¬(r2.username = r.username ∧ r2.comment_text = r.comment_text)))
termination_by xs => xs.length
decreasing_by
  simp only [List.length_cons]
  exact Nat.lt_succ_of_le (List.length_filter_le _ _)

theorem filterDupAux_eq_keepFirstBy (seen : List String) (xs : List CommentRecord) :
    filterDupAux seen xs = keepFirstBy commentKey (xs.filter (fun r => commentKey r ∉ seen)) := by
  induction xs generalizing seen with
  | nil => simp [filterDupAux, keepFirstBy]
  | cons r rest ih =>
    by_cases h : commentKey r ∈ seen
    · have hd : (decide (commentKey r ∉ seen)) = false := by simpa using h
      simp only [filterDupAux, if_pos h, List.filter_cons, hd, Bool.false_eq_true, if_false]
      exact ih seen
    · have hd : (decide (commentKey r ∉ seen)) = true := by simpa using h
      simp only [filterDupAux, if_neg h, List.filter_cons, hd, if_true]
      simp only [keepFirstBy]
      congr 1
      rw [ih (commentKey r :: seen), List.filter_filter]
      congr 1
      apply List.filter_congr
      intro a _
      by_cases h1 : commentKey a = commentKey r <;> by_cases h2 : commentKey a ∈ seen <;>
        simp [h1, h2]

theorem dedup_eq_keepFirstBy_key (xs : List CommentRecord) :
    filter_duplicate_comments xs = keepFirstBy commentKey xs := by
  have := filterDupAux_eq_keepFirstBy [] xs
  simpa [filter_duplicate_comments] using this

theorem keepFirstBy_filter_key (k : String) (n : Nat) :
    ∀ l : List CommentRecord, l.length ≤ n →
      (keepFirstBy commentKey l).filter (fun r2 => commentKey r2 ≠ k)
        = keepFirstBy commentKey (l.filter (fun r2 => commentKey r2 ≠ k)) := by
  induction n with
  | zero =>
    intro l hl
    have : l = [] := List.length_eq_zero.mp (Nat.le_zero.mp hl)
    subst this
    simp [keepFirstBy]
  | succ n ih =>
    intro l hl
    match l with
    | [] => simp [keepFirstBy]
    | r :: rest =>
      have hr : rest.length ≤ n := by
        simpa [List.length_cons] using hl
      by_cases h : commentKey r = k
      · have hd : (decide (commentKey r ≠ k)) = false := by simpa using h
        simp only [keepFirstBy, List.filter_cons, hd, Bool.false_eq_true, if_false]
        rw [ih (rest.filter (fun r2 => commentKey r2 ≠ commentKey r))
          (Nat.le_trans (List.length_filter_le _ _) hr)]
        rw [List.filter_filter]
        apply congrArg
        apply List.filter_congr
        intro a _
        rw [h]
        exact Bool.and_self _
      · have hd : (decide (commentKey r ≠ k)) = true := by simpa using h
        simp only [keepFirstBy, List.filter_cons, hd, if_true]
        apply congrArg
        rw [ih (rest.filter (fun r2 => commentKey r2 ≠ commentKey r))
          (Nat.le_trans (List.length_filter_le _ _) hr)]
        rw [List.filter_filter, List.filter_filter]
        apply congrArg
        apply List.filter_congr
        intro a _
        exact Bool.and_comm _ _

theorem keepFirstBy_idem (n : Nat) :
    ∀ l : List CommentRecord, l.length ≤ n →
      keepFirstBy commentKey (keepFirstBy commentKey l) = keepFirstBy commentKey l := by
  induction n with
  | zero =>
    intro l hl
    have : l = [] := List.length_eq_zero.mp (Nat.le_zero.mp hl)
    subst this
    simp [keepFirstBy]
  | succ n ih =>
    intro l hl
    match l with
    | [] => simp [keepFirstBy]
    | r :: rest =>
      have hr : rest.length ≤ n := by
        simpa [List.length_cons] using hl
      simp only [keepFirstBy]
      apply congrArg
      rw [keepFirstBy_filter_key (commentKey r) n
        (rest.filter (fun r2 => commentKey r2 ≠ commentKey r))
        (Nat.le_trans (List.length_filter_le _ _) hr)]
      rw [List.filter_filter]
      have hf : rest.filter
            (fun a => decide (commentKey a ≠ commentKey r) && decide (commentKey a ≠ commentKey r))
          = rest.filter (fun r2 => commentKey r2 ≠ commentKey r) := by
        apply List.filter_congr
        intro a _
        exact Bool.and_self _
      rw [hf]
      exact ih _ (Nat.le_trans (List.length_filter_le _ _) hr)

theorem append_cons_eq_of_not_mem {α : Type} (c : α) :
    ∀ (l1 l2 t1 t2 : List α), c ∉ l1 → c ∉ l2 →
      l1 ++ c :: t1 = l2 ++ c :: t2 → l1 = l2 ∧ t1 = t2 := by
  intro l1
  induction l1 with
  | nil =>
    intro l2 t1 t2 _ h2 h
    match l2 with
    | [] => simpa using h
    | b :: l2 =>
      simp only [List.nil_append, List.cons_append, List.cons.injEq] at h
      exact absurd (h.1 ▸ List.mem_cons_self b l2) h2
  | cons a l1 ih =>
    intro l2 t1 t2 h1 h2 h
    match l2 with
    | [] =>
      simp only [List.cons_append, List.nil_append, List.cons.injEq] at h
      exact absurd (h.1 ▸ List.mem_cons_self a l1) (h.1 ▸ h1)
    | b :: l2 =>
      simp only [List.cons_append, List.cons.injEq] at h
      have hr := ih l2 t1 t2 (fun hm => h1 (List.mem_cons_of_mem a hm))
        (fun hm => h2 (List.mem_cons_of_mem b hm)) h.2
      exact ⟨by rw [h.1, hr.1], hr.2⟩

theorem commentKey_data (r : CommentRecord) :
    (commentKey r).data = r.username.data ++ ':' :: r.comment_text.data := by
  simp [commentKey, String.data_append]

/-- When neither username contains a colon, equality of the joined dedup keys
forces equality of the (username, comment_text) pairs. -/
theorem commentKey_inj (r1 r2 : CommentRecord)
    (h1 : ':' ∉ r1.username.data) (h2 : ':' ∉ r2.username.data)
    (h : commentKey r1 = commentKey r2) :
    r1.username = r2.username ∧ r1.comment_text = r2.comment_text := by
  have hd : (commentKey r1).data = (commentKey r2).data := by rw [h]
  rw [commentKey_data, commentKey_data] at hd
  have := append_cons_eq_of_not_mem ':' _ _ _ _ h1 h2 hd
  exact ⟨String.ext this.1, String.ext this.2⟩

theorem keepFirstBy_key_eq_pair (n : Nat) :
    ∀ l : List CommentRecord, l.length ≤ n → (∀ r ∈ l, ':' ∉ r.username.data) →
      keepFirstBy commentKey l = keepFirstByPair l := by
  induction n with
  | zero =>
    intro l hl _
    have : l = [] := List.length_eq_zero.mp (Nat.le_zero.mp hl)
    subst this
    simp [keepFirstBy, keepFirstByPair]
  | succ n ih =>
    intro l hl hc
    match l with
    | [] => simp [keepFirstBy, keepFirstByPair]
    | r :: rest =>
      have hr : rest.length ≤ n := by
        simpa [List.length_cons] using hl
      simp only [keepFirstBy, keepFirstByPair]
      have hfe : rest.filter (fun r2 => commentKey r2 ≠ commentKey r)
          = rest.filter
            (fun r2 => ¬(r2.username = r.username ∧ r2.comment_text = r.comment_text)) := by
        apply List.filter_congr
        intro a ha
        apply decide_eq_decide.mpr
        constructor
        · intro hne hpair
          exact hne (by rw [commentKey, commentKey, hpair.1, hpair.2])
        · intro hnp hk
          exact hnp (commentKey_inj a r
            (hc a (List.mem_cons_of_mem r ha)) (hc r (List.mem_cons_self r rest)) hk)
      rw [hfe]
      apply congrArg
      apply ih _ (Nat.le_trans (List.length_filter_le _ _) hr)
      intro a ha
      exact hc a (List.mem_cons_of_mem r (List.mem_of_mem_filter ha))

/-- Input on which the joined-string dedup key conflates two distinct
(username, comment_text) pairs: both records have key "a:b:c". -/
def cexRecA : CommentRecord :=
  { username := "a:b", comment_text := "c", likes := "0", comment_time := "1d",
    replies_count := some "0", is_reply := false, parent_comment_username := none }

/-- Second record of the dedup collision pair; see `cexRecA`. -/
def cexRecB : CommentRecord :=
  { username := "a", comment_text := "b:c", likes := "0", comment_time := "1d",
    replies_count := some "0", is_reply := false, parent_comment_username := none }

/-- C1 counterexample: `filter_duplicate_comments` drops `cexRecB` even though its
(username, comment_text) pair differs from `cexRecA`'s, because the joined keys
"a:b" + ":" + "c" and "a" + ":" + "b:c" coincide; first-seen filtering by the
actual pair would keep both records. -/
theorem dedup_pair_identity_cex :
    filter_duplicate_comments [cexRecA, cexRecB] = [cexRecA] ∧
    keepFirstByPair [cexRecA, cexRecB] = [cexRecA, cexRecB] ∧
    ¬(cexRecB.username = cexRecA.username ∧ cexRecB.comment_text = cexRecA.comment_text) := by
  refine ⟨by decide, ?_, by decide⟩
  simp [keepFirstByPair, cexRecA, cexRecB]

/-- C1 (amended): deduplication keeps, for each value of the joined string key
`username ++ ":" ++ comment_text`, only the first record bearing it, in input
order; this coincides with first-seen filtering by the (username, comment_text)
pair whenever no username contains a colon, but not in general. -/
theorem dedup_keeps_first_by_joined_key (xs : List CommentRecord) :
    filter_duplicate_comments xs = keepFirstBy commentKey xs ∧
    ((∀ r ∈ xs, ':' ∉ r.username.data) → filter_duplicate_comments xs = keepFirstByPair xs) := by
  refine ⟨dedup_eq_keepFirstBy_key xs, fun hc => ?_⟩
  rw [dedup_eq_keepFirstBy_key xs]
  exact keepFirstBy_key_eq_pair xs.length xs (Nat.le_refl _) hc

/-- C1 witness: the amended theorem applied to a concrete colon-free batch with
one duplicate. -/
theorem dedup_keeps_first_by_joined_key_witness :
    (∀ r ∈ [cexRecB, cexRecB], ':' ∉ r.username.data) ∧
    filter_duplicate_comments [cexRecB, cexRecB] = keepFirstByPair [cexRecB, cexRecB] :=
  ⟨by decide, (dedup_keeps_first_by_joined_key [cexRecB, cexRecB]).2 (by decide)⟩

/-- C2: deduplication is idempotent — applying `filter_duplicate_comments` to its
own output returns that output unchanged. -/
theorem dedup_idempotent (xs : List CommentRecord) :
    filter_duplicate_comments (filter_duplicate_comments xs) = filter_duplicate_comments xs := by
  rw [dedup_eq_keepFirstBy_key, dedup_eq_keepFirstBy_key xs]
  exact keepFirstBy_idem xs.length xs (Nat.le_refl _)

/-- Fuel-indexed while-loop runner: `grun step guard f s` executes
`while guard(s): s := step(s)` for at most `f` iterations; `some s2` is the exit
state of the loop, `none` means the loop was still running after `f` rounds. -/
def grun {σ : Type} (step : σ → σ) (guard : σ → Bool) : Nat → σ → Option σ
  | 0, _ => none
  | f + 1, s => if guard s then grun step guard f (step s) else some s

theorem grun_terminates {σ : Type} (step : σ → σ) (guard : σ → Bool)
    (inv : σ → Prop) (μ : σ → Nat)
    (hstep : ∀ s, inv s → guard s = true → inv (step s) ∧ μ (step s) < μ s) :
    ∀ (f : Nat) (s : σ), inv s → μ s < f →
      ∃ s2, grun step guard f s = some s2 ∧ inv s2 ∧ guard s2 = false := by
  intro f
  induction f with
  | zero => intro s _ h; exact absurd h (Nat.not_lt_zero _)
  | succ f ih =>
    intro s hi hμ
    cases hg : guard s with
    | false => exact ⟨s, by simp [grun, hg], hi, hg⟩
    | true =>
      obtain ⟨hi2, hd⟩ := hstep s hi hg
      obtain ⟨s2, h1, h2, h3⟩ := ih (step s) hi2 (by omega)
      exact ⟨s2, by simp [grun, hg, h1], h2, h3⟩

theorem grun_diverges {σ : Type} (step : σ → σ) (guard : σ → Bool)
    (inv : σ → Prop)
    (hstep : ∀ s, inv s → guard s = true ∧ inv (step s)) :
    ∀ (f : Nat) (s : σ), inv s → grun step guard f s = none := by
  intro f
  induction f with
  | zero => intro s _; rfl
  | succ f ih =>
    intro s hi
    obtain ⟨hg, hi2⟩ := hstep s hi
    simp [grun, hg, ih (step s) hi2]

/-- State of the scroll loop of `load_all_comments` (tiktok_crawler.py:816-870):
`loaded` is `comments_loaded`, `last` is `last_comments_count`, `attempts` the
no-improvement counter, `round` the number of completed iterations. The DOM is
abstracted as `dom : Nat → Nat`, the rendered `DivCommentItemWrapper` count
observed at each iteration. -/
structure LoadState where
  loaded : Nat
  last : Nat
  attempts : Nat
  round : Nat
deriving DecidableEq, Repr

/-- One iteration of the scroll-loop body (tiktok_crawler.py:823-860): re-count
the rendered comments, increment `attempts` when the count equals the previous
count and reset it to zero otherwise; the scroll, the sleep and the clicks on
reply affordances touch no loop variable. -/
def loadStep (dom : Nat → Nat) (s : LoadState) : LoadState :=
  let c := dom s.round
  { loaded := c, last := c,
    attempts := if c = s.last then s.attempts + 1 else 0,
    round := s.round + 1 }

/-- Continuation condition of the scroll loop (tiktok_crawler.py:822; the two
`break`s at 863-870 re-check exactly its negation on the updated state, so the
loop exits if and only if this guard fails). -/
def loadGuard (maxComments maxAttempts : Nat) (s : LoadState) : Bool :=
  decide (s.loaded < maxComments) && decide (s.attempts < maxAttempts)

/-- Entry state of the scroll loop (tiktok_crawler.py:817-819). -/
def initLoad : LoadState := ⟨0, 0, 0, 0⟩

/-- `load_all_comments` scroll loop (tiktok_crawler.py:796-881), run for at most
`fuel` rounds; `some s2` is the state at loop exit, `none` means the loop is
still running after `fuel` rounds. The source default for `maxAttempts` is 20. -/
def load_all_comments (dom : Nat → Nat) (maxComments maxAttempts fuel : Nat) : Option LoadState :=
  grun (loadStep dom) (loadGuard maxComments maxAttempts) fuel initLoad

/-- The scroll loop reaches its exit within some number of rounds. -/
def loadTerminates (dom : Nat → Nat) (maxComments maxAttempts : Nat) : Prop :=
  ∃ fuel s2, load_all_comments dom maxComments maxAttempts fuel = some s2

/-- Number of "view more replies" affordances opened in one loop round
(tiktok_crawler.py:852-858): all visible `DivViewRepliesContainer` elements are
fetched and the first five are clicked; `btns t` is how many are visible at
round `t`. -/
def openedAffordances (btns : Nat → Nat) (t : Nat) : Nat :=
  min (btns t) 5

/-- Rendered count alternating between 0 and 1: it never grows past 1, yet it
changes every round, so the no-improvement counter keeps being reset. -/
def oscDom : Nat → Nat := fun t => t % 2

/-- C3 counterexample: against `oscDom`, whose rendered count never exceeds 1,
the scroll loop with target 100 and retry budget 20 never exits — the claim's
stopping guarantee fails for a DOM whose count is bounded but not monotone,
because `attempts` is reset whenever the count merely changes. -/
theorem load_oscillating_diverges : ¬ loadTerminates oscDom 100 20 := by
  rintro ⟨fuel, s2, h⟩
  have hdiv := grun_diverges (loadStep oscDom) (loadGuard 100 20)
    (fun s => s.loaded ≤ 1 ∧ s.attempts ≤ 1 ∧ (oscDom s.round = s.last → s.attempts = 0))
    ?_ fuel initLoad ?_
  · rw [load_all_comments, hdiv] at h
    exact Option.noConfusion h
  · rintro s ⟨h1, h2, h3⟩
    constructor
    · simp only [loadGuard, Bool.and_eq_true, decide_eq_true_eq]
      omega
    · refine ⟨?_, ?_, ?_⟩
      · show oscDom s.round ≤ 1
        simp only [oscDom]
        omega
      · show (if oscDom s.round = s.last then s.attempts + 1 else 0) ≤ 1
        by_cases hc : oscDom s.round = s.last
        · simp [hc, h3 hc]
        · simp [hc]
      · show oscDom (s.round + 1) = oscDom s.round →
          (if oscDom s.round = s.last then s.attempts + 1 else 0) = 0
        simp only [oscDom]
        omega
  · exact ⟨Nat.zero_le 1, Nat.zero_le 1, fun _ => rfl⟩

/-- C3 (amended): for a DOM whose rendered count is non-decreasing over rounds
and never exceeds `N`, with target `maxC > N`, the scroll loop exits within
`N * (maxAtt + 1) + maxAtt + 1` rounds, and it exits because the no-improvement
budget `maxAtt` is exhausted while the count is still at most `N`; without the
monotonicity assumption the loop can run forever (see the counterexample). -/
theorem load_monotone_terminates (dom : Nat → Nat) (N maxC maxAtt : Nat)
    (hmono : ∀ a b, a ≤ b → dom a ≤ dom b)
    (hbound : ∀ t, dom t ≤ N) (htarget : N < maxC) :
    ∃ s2, load_all_comments dom maxC maxAtt (N * (maxAtt + 1) + maxAtt + 1) = some s2 ∧
      maxAtt ≤ s2.attempts ∧ s2.loaded ≤ N := by
  have hterm := grun_terminates (loadStep dom) (loadGuard maxC maxAtt)
    (fun s => s.loaded ≤ N ∧ s.last ≤ N ∧ s.last ≤ dom s.round ∧ s.attempts ≤ maxAtt)
    (fun s => (N - s.last) * (maxAtt + 1) + (maxAtt - s.attempts))
    ?_ (N * (maxAtt + 1) + maxAtt + 1) initLoad ?_ ?_
  · obtain ⟨s2, h1, ⟨hl, _, _, ha⟩, hg⟩ := hterm
    refine ⟨s2, h1, ?_, hl⟩
    have hng : ¬(s2.loaded < maxC ∧ s2.attempts < maxAtt) := by
      rintro ⟨hx, hy⟩
      simp [loadGuard, hx, hy] at hg
    omega
  · rintro s ⟨h1, h2, h3, h4⟩ hg
    simp only [loadGuard, Bool.and_eq_true, decide_eq_true_eq] at hg
    have hc : dom s.round ≤ N := hbound s.round
    have hm : dom s.round ≤ dom (s.round + 1) := hmono _ _ (Nat.le_succ _)
    by_cases he : dom s.round = s.last
    · refine ⟨⟨?_, ?_, ?_, ?_⟩, ?_⟩
      · show dom s.round ≤ N
        exact hc
      · show dom s.round ≤ N
        exact hc
      · show dom s.round ≤ dom (s.round + 1)
        exact hm
      · show (if dom s.round = s.last then s.attempts + 1 else 0) ≤ maxAtt
        simp only [he, if_true]
        omega
      · show (N - dom s.round) * (maxAtt + 1)
            + (maxAtt - (if dom s.round = s.last then s.attempts + 1 else 0))
          < (N - s.last) * (maxAtt + 1) + (maxAtt - s.attempts)
        simp only [he, if_true]
        omega
    · have hgt : s.last < dom s.round := Nat.lt_of_le_of_ne h3 (fun hx => he hx.symm)
      refine ⟨⟨hc, hc, hm, ?_⟩, ?_⟩
      · show (if dom s.round = s.last then s.attempts + 1 else 0) ≤ maxAtt
        simp only [he, if_false]
        omega
      · show (N - dom s.round) * (maxAtt + 1)
            + (maxAtt - (if dom s.round = s.last then s.attempts + 1 else 0))
          < (N - s.last) * (maxAtt + 1) + (maxAtt - s.attempts)
        simp only [he, if_false]
        have hk : (N - dom s.round) + 1 ≤ N - s.last := by omega
        have hk2 : ((N - dom s.round) + 1) * (maxAtt + 1) ≤ (N - s.last) * (maxAtt + 1) :=
          Nat.mul_le_mul_right _ hk
        rw [Nat.add_mul, Nat.one_mul] at hk2
        omega
  · exact ⟨Nat.zero_le N, Nat.zero_le N, Nat.zero_le _, Nat.zero_le maxAtt⟩
  · simp only [initLoad, Nat.sub_zero]
    omega

/-- C3 witness: the amended termination theorem applied to the concrete monotone
DOM `min t 3`, target 5, budget 4. -/
theorem load_monotone_terminates_witness :
    (3 < 5) ∧
    ∃ s2, load_all_comments (fun t => min t 3) 5 4 (3 * 5 + 4 + 1) = some s2 ∧
      4 ≤ s2.attempts ∧ s2.loaded ≤ 3 :=
  ⟨by decide, load_monotone_terminates (fun t => min t 3) 3 5 4
    (fun a b h => min_le_min h (Nat.le_refl 3))
    (fun t => Nat.min_le_right t 3) (by decide)⟩

/-- Constant rendered count of 1: no growth after the first round. -/
def constDom : Nat → Nat := fun _ => 1

/-- Two "view more replies" affordances visible every round. -/
def constBtns : Nat → Nat := fun _ => 2

/-- C9 counterexample: in the second loop round against `constDom`/`constBtns`,
two reply affordances are opened (`openedAffordances constBtns 1 = 2`), the round
is a genuine loop round (the guard held before it), and yet the no-improvement
counter goes from 0 to 1 instead of being reset: opening affordances does not
reset `attempts`. -/
theorem open_replies_no_reset_cex :
    openedAffordances constBtns 1 = 2 ∧
    loadGuard 100 20 (loadStep constDom initLoad) = true ∧
    (loadStep constDom initLoad).attempts = 0 ∧
    (loadStep constDom (loadStep constDom initLoad)).attempts = 1 := by
  decide

/-- C9 (amended): the clicks on "view more replies" affordances leave every loop
variable untouched; in any round, the no-improvement counter is reset exactly
when the freshly observed count differs from the previous one, regardless of
how many affordances were opened — in particular a round that opens at least one
affordance still increments the counter whenever the count is unchanged. -/
theorem open_replies_does_not_reset_attempts (dom btns : Nat → Nat) (s : LoadState)
    (hopen : 0 < openedAffordances btns s.round) :
    (loadStep dom s).attempts = (if dom s.round = s.last then s.attempts + 1 else 0) ∧
    ((loadStep dom s).attempts = 0 ↔ dom s.round ≠ s.last) := by
  refine ⟨rfl, ?_⟩
  by_cases he : dom s.round = s.last
  · simp [loadStep, he]
  · simp [loadStep, he]

/-- C9 witness: the amended theorem applied to the first round of the
`constDom`/`constBtns` run. -/
theorem open_replies_does_not_reset_attempts_witness :
    0 < openedAffordances constBtns 0 ∧
    ((loadStep constDom initLoad).attempts
        = (if constDom 0 = initLoad.last then initLoad.attempts + 1 else 0) ∧
      ((loadStep constDom initLoad).attempts = 0 ↔ constDom 0 ≠ initLoad.last)) :=
  ⟨by decide, open_replies_does_not_reset_attempts constDom constBtns initLoad (by decide)⟩

/-- Modelled from the spec: the `load_all_comments` under src
(tiktok_crawler.py:796) accepts no `unlimited`/`max_idle_time` arguments, while
the page driver invokes it with them (crawler.py:455-462), so the unbounded-mode
loop they configure is missing from src. Following the spec's stopping rule, each
polling round observes the rendered count, growth past the previous best resets
the idle clock, and the loop stops once the target is reached or the time since
the last observed growth reaches the idle timeout; time is measured in polling
rounds (one scroll-pause per round). `best` is the highest count observed, `idle`
the number of rounds since the last observed growth. -/
structure IdleState where
  best : Nat
  idle : Nat
  round : Nat
deriving DecidableEq, Repr

/-- One polling round of the spec-modelled unbounded loader: see `IdleState`. -/
def idleStep (dom : Nat → Nat) (s : IdleState) : IdleState :=
  let c := dom s.round
  if s.best < c then { best := c, idle := 0, round := s.round + 1 }
  else { best := s.best, idle := s.idle + 1, round := s.round + 1 }

/-- Continuation condition of the spec-modelled unbounded loader: keep polling
while the target is unreached and the idle clock is below the timeout. -/
def idleGuard (maxComments maxIdle : Nat) (s : IdleState) : Bool :=
  decide (s.best < maxComments) && decide (s.idle < maxIdle)

/-- Entry state of the spec-modelled unbounded loader. -/
def initIdle : IdleState := ⟨0, 0, 0⟩

/-- Spec-modelled unbounded-mode comment loading (see `IdleState`), run for at
most `fuel` polling rounds. -/
def load_all_comments_unlimited (dom : Nat → Nat) (maxComments maxIdle fuel : Nat) :
    Option IdleState :=
  grun (idleStep dom) (idleGuard maxComments maxIdle) fuel initIdle

/-- C4: in unbounded mode, against any DOM whose rendered count stays at most
`B` below the target `maxC` (so the target is never reached), the loader exits
within `(B + 1) * (maxIdle + 1)` rounds, and at exit the idle clock — the number
of rounds since the last observed growth — equals exactly `maxIdle`: the loop
terminates within the idle timeout of the last growth event. -/
theorem unlimited_load_terminates_within_idle (dom : Nat → Nat) (B maxC maxIdle : Nat)
    (hbound : ∀ t, dom t ≤ B) (htarget : B < maxC) :
    ∃ s2, load_all_comments_unlimited dom maxC maxIdle ((B + 1) * (maxIdle + 1)) = some s2 ∧
      s2.idle = maxIdle ∧ s2.best < maxC := by
  have hterm := grun_terminates (idleStep dom) (idleGuard maxC maxIdle)
    (fun s => s.best ≤ B ∧ s.idle ≤ maxIdle)
    (fun s => (B - s.best) * (maxIdle + 1) + (maxIdle - s.idle))
    ?_ ((B + 1) * (maxIdle + 1)) initIdle ?_ ?_
  · obtain ⟨s2, h1, ⟨hb, hi⟩, hg⟩ := hterm
    have hng : ¬(s2.best < maxC ∧ s2.idle < maxIdle) := by
      rintro ⟨hx, hy⟩
      simp [idleGuard, hx, hy] at hg
    refine ⟨s2, h1, by omega, by omega⟩
  · rintro s ⟨h1, h2⟩ hg
    simp only [idleGuard, Bool.and_eq_true, decide_eq_true_eq] at hg
    have hc : dom s.round ≤ B := hbound s.round
    by_cases he : s.best < dom s.round
    · constructor
      · constructor
        · show (idleStep dom s).best ≤ B
          simp only [idleStep, if_pos he]
          exact hc
        · show (idleStep dom s).idle ≤ maxIdle
          simp only [idleStep, if_pos he]
          exact Nat.zero_le _
      · show (B - (idleStep dom s).best) * (maxIdle + 1) + (maxIdle - (idleStep dom s).idle)
          < (B - s.best) * (maxIdle + 1) + (maxIdle - s.idle)
        simp only [idleStep, if_pos he]
        have hk : (B - dom s.round) + 1 ≤ B - s.best := by omega
        have hk2 : ((B - dom s.round) + 1) * (maxIdle + 1) ≤ (B - s.best) * (maxIdle + 1) :=
          Nat.mul_le_mul_right _ hk
        rw [Nat.add_mul, Nat.one_mul] at hk2
        omega
    · constructor
      · constructor
        · show (idleStep dom s).best ≤ B
          simp only [idleStep, if_neg he]
          exact h1
        · show (idleStep dom s).idle ≤ maxIdle
          simp only [idleStep, if_neg he]
          omega
      · show (B - (idleStep dom s).best) * (maxIdle + 1) + (maxIdle - (idleStep dom s).idle)
          < (B - s.best) * (maxIdle + 1) + (maxIdle - s.idle)
        simp only [idleStep, if_neg he]
        omega
  · exact ⟨Nat.zero_le B, Nat.zero_le maxIdle⟩
  · simp only [initIdle, Nat.sub_zero]
    have hx : (B + 1) * (maxIdle + 1) = B * (maxIdle + 1) + (maxIdle + 1) := by
      rw [Nat.add_mul, Nat.one_mul]
    omega

/-- C4 witness: the unbounded-mode termination theorem applied to the concrete
DOM `min t 3` (last growth at round 3), target 100, idle timeout 5. -/
theorem unlimited_load_terminates_within_idle_witness :
    (3 < 100) ∧
    ∃ s2, load_all_comments_unlimited (fun t => min t 3) 100 5 ((3 + 1) * (5 + 1)) = some s2 ∧
      s2.idle = 5 ∧ s2.best < 100 :=
  ⟨by decide, unlimited_load_terminates_within_idle (fun t => min t 3) 3 100 5
    (fun t => Nat.min_le_right t 3) (by decide)⟩

/-- Rendered reply container under a top-level comment (the elements matched at
tiktok_crawler.py:963/972). A `none` field models `find_element` raising
`NoSuchElementException` for that sub-element; for replies, a missing username
or text aborts that reply (the exception is caught at :1009 and the loop
continues), while missing likes/time degrade to defaults (:984-993). -/
structure ReplyElem where
  username : Option String
  text : Option String
  likes : Option String
  time : Option String
deriving DecidableEq, Repr

/-- Rendered top-level comment container (the elements matched at
tiktok_crawler.py:899). `none` fields model absent sub-elements (:909-944);
`renderedReplies` are the reply wrappers present before any click, and
`repliesAfterClick` those found by the re-query after clicking the expand
affordance (:962-972). -/
structure CommentElem where
  username : Option String
  text : Option String
  likes : Option String
  time : Option String
  repliesLabel : Option String
  renderedReplies : List ReplyElem
  repliesAfterClick : List ReplyElem
deriving DecidableEq, Repr

/-- First maximal run of digit characters in a string, embedding
`re.search(r'(\d+)', replies_text)` (tiktok_crawler.py:941). -/
def firstDigitRun (s : String) : Option String :=
  let run := (s.data.dropWhile (fun ch => !ch.isDigit)).takeWhile Char.isDigit
  if run.isEmpty then none else some (String.mk run)

/-- The `replies_count` string of a top-level container (tiktok_crawler.py:937-944):
the first digit run of the "view N replies" label, with "0" when the label is
absent or has no digits. -/
def repliesCountStr (c : CommentElem) : String :=
  match c.repliesLabel with
  | none => "0"
  | some l => (firstDigitRun l).getD "0"

/-- Value of a digit string, most significant digit first. -/
def digitsToNat (l : List Char) : Nat :=
  l.foldl (fun n c => n * 10 + (c.toNat - '0'.toNat)) 0

/-- `int(replies_count)` (tiktok_crawler.py:960); `repliesCountStr` is always a
digit string, so the conversion never fails. -/
def repliesCountNat (c : CommentElem) : Nat :=
  digitsToNat (repliesCountStr c).data

/-- Top-level record built at tiktok_crawler.py:947-954, with the documented
defaults for absent sub-elements. -/
def extractTop (c : CommentElem) : CommentRecord :=
  { username := c.username.getD "Unknown",
    comment_text := c.text.getD "",
    likes := c.likes.getD "0",
    comment_time := c.time.getD "Unknown",
    replies_count := some (repliesCountStr c),
    is_reply := false,
    parent_comment_username := none }

/-- Reply record built at tiktok_crawler.py:975-1007: username and text are read
without a fallback, so their absence skips the reply (`none`); likes and time
degrade to defaults; `parent_comment_username` is the enclosing top-level
container's resolved author. -/
def extractReply (parentUsername : String) (r : ReplyElem) : Option CommentRecord :=
  match r.username, r.text with
  | some u, some t =>
    some { username := u, comment_text := t, likes := r.likes.getD "0",
           comment_time := r.time.getD "Unknown", replies_count := none,
           is_reply := true, parent_comment_username := some parentUsername }
  | _, _ => none

/-- The reply containers extraction walks (tiktok_crawler.py:962-972): the
already-rendered wrappers, or the wrappers re-queried after clicking the expand
affordance when none are rendered yet. -/
def repliesOf (c : CommentElem) : List ReplyElem :=
  if c.renderedReplies.isEmpty then c.repliesAfterClick else c.renderedReplies

/-- Reply records appended for one top-level container
(tiktok_crawler.py:959-1007): produced only when replies are requested and the
parsed reply count is positive. -/
def emittedReplies (c : CommentElem) (includeReplies : Bool) : List CommentRecord :=
  if includeReplies ∧ 0 < repliesCountNat c then
    (repliesOf c).filterMap (extractReply ((extractTop c).username))
  else []

/-- The extraction loop over the processed containers (tiktok_crawler.py:904-1018):
one top-level record per container, followed by its reply records. -/
def extractList (includeReplies : Bool) : List CommentElem → List CommentRecord
  | [] => []
  | c :: rest => (extractTop c :: emittedReplies c includeReplies) ++ extractList includeReplies rest

/-- `extract_comments` (tiktok_crawler.py:884-1025): processes
`min(len(comment_elements), max_comments)` top-level containers in DOM order. -/
def extract_comments (elems : List CommentElem) (maxComments : Nat)
    (includeReplies : Bool) : List CommentRecord :=
  extractList includeReplies (elems.take maxComments)

theorem extractReply_fields (p : String) (re : ReplyElem) (r : CommentRecord)
    (h : extractReply p re = some r) :
    r.is_reply = true ∧ r.parent_comment_username = some p := by
  unfold extractReply at h
  match hu : re.username, ht : re.text with
  | some u, some t =>
    rw [hu, ht] at h
    cases h
    exact ⟨rfl, rfl⟩
  | some u, none => rw [hu, ht] at h; cases h
  | none, some t => rw [hu, ht] at h; cases h
  | none, none => rw [hu, ht] at h; cases h

theorem mem_emittedReplies_is_reply (c : CommentElem) (incl : Bool) (r : CommentRecord)
    (h : r ∈ emittedReplies c incl) : r.is_reply = true := by
  unfold emittedReplies at h
  split at h
  · obtain ⟨re, _, hre⟩ := List.mem_filterMap.mp h
    exact (extractReply_fields _ re r hre).1
  · cases h

theorem mem_extractList_reply (incl : Bool) :
    ∀ (l : List CommentElem) (r : CommentRecord), r ∈ extractList incl l →
      r.is_reply = true →
      ∃ c ∈ l, r.parent_comment_username = some ((extractTop c).username) ∧
        ∃ re ∈ repliesOf c, extractReply ((extractTop c).username) re = some r := by
  intro l
  induction l with
  | nil => intro r h _; cases h
  | cons c rest ih =>
    intro r h hrep
    simp only [extractList, List.cons_append, List.mem_cons, List.mem_append] at h
    rcases h with h | h | h
    · rw [h] at hrep
      cases hrep
    · unfold emittedReplies at h
      split at h
      · obtain ⟨re, hmem, hre⟩ := List.mem_filterMap.mp h
        exact ⟨c, List.mem_cons_self c rest,
          (extractReply_fields _ re r hre).2, re, hmem, hre⟩
      · cases h
    · obtain ⟨c2, hc2, hp, re, hre, heq⟩ := ih r h hrep
      exact ⟨c2, List.mem_cons_of_mem c hc2, hp, re, hre, heq⟩

/-- C7: every reply record emitted by `extract_comments` carries
`is_reply = true` and a non-null `parent_comment_username` equal to the resolved
author of the top-level container under which the reply was found. -/
theorem reply_records_parent_author (elems : List CommentElem) (maxComments : Nat)
    (incl : Bool) (r : CommentRecord)
    (hr : r ∈ extract_comments elems maxComments incl) (hrep : r.is_reply = true) :
    ∃ c ∈ elems.take maxComments,
      r.parent_comment_username = some ((extractTop c).username) ∧
      ∃ re ∈ repliesOf c, extractReply ((extractTop c).username) re = some r :=
  mem_extractList_reply incl (elems.take maxComments) r hr hrep

/-- Concrete reply container with author "bob". -/
def demoReplyElem : ReplyElem :=
  { username := some "bob", text := some "yo", likes := none, time := none }

/-- Concrete reply container with author "carol". -/
def demoReplyElem2 : ReplyElem :=
  { username := some "carol", text := some "hey", likes := some "1", time := some "2d" }

/-- Concrete top-level container by "alice" with two rendered replies and a
"View 2 replies" label. -/
def demoParentElem : CommentElem :=
  { username := some "alice", text := some "hello", likes := some "3", time := some "1d",
    repliesLabel := some "View 2 replies",
    renderedReplies := [demoReplyElem, demoReplyElem2], repliesAfterClick := [] }

/-- C7 witness: the reply-record theorem applied to the concrete record of "bob"
found under "alice"'s container. -/
theorem reply_records_parent_author_witness :
    ∃ c ∈ [demoParentElem].take 5,
      (CommentRecord.mk "bob" "yo" "0" "Unknown" none true
        (some "alice")).parent_comment_username = some ((extractTop c).username) ∧
      ∃ re ∈ repliesOf c, extractReply ((extractTop c).username) re
        = some (CommentRecord.mk "bob" "yo" "0" "Unknown" none true (some "alice")) :=
  reply_records_parent_author [demoParentElem] 5 true
    (CommentRecord.mk "bob" "yo" "0" "Unknown" none true (some "alice"))
    (by decide) (by decide)

theorem extractList_top_count (incl : Bool) :
    ∀ l : List CommentElem,
      ((extractList incl l).filter (fun r => !r.is_reply)).length = l.length := by
  intro l
  induction l with
  | nil => rfl
  | cons c rest ih =>
    simp only [extractList, List.cons_append, List.filter_cons, List.filter_append]
    have hc : (!(extractTop c).is_reply) = true := rfl
    rw [hc]
    have hrep : (emittedReplies c incl).filter (fun r => !r.is_reply) = [] := by
      rw [List.filter_eq_nil_iff]
      intro r hr
      simp [mem_emittedReplies_is_reply c incl r hr]
    simp only [if_true, List.length_cons, hrep, List.nil_append]
    rw [ih]

/-- C10: the `max_comments` cap of `extract_comments` bounds only the number of
top-level containers processed — the count of non-reply records in the output is
exactly `min(max_comments, rendered_count)` for every input — while reply
records are not counted against the cap, so with replies included the total
output can strictly exceed `max_comments`: the concrete one-container DOM
`demoParentElem` with `max_comments = 1` yields 3 records. -/
theorem cap_bounds_top_level_only :
    (∀ (elems : List CommentElem) (maxComments : Nat) (incl : Bool),
      ((extract_comments elems maxComments incl).filter (fun r => !r.is_reply)).length
        = min maxComments elems.length) ∧
    (extract_comments [demoParentElem] 1 true).length = 3 := by
  constructor
  · intro elems maxComments incl
    rw [extract_comments, extractList_top_count, List.length_take]
  · decide

/-- Modelled from the spec: the `extract_comments` under src
(tiktok_crawler.py:884) takes no `skip_unknown` parameter, while the page driver
passes `skip_unknown=True` (crawler.py:467-471), so the configurable filter is
missing from src. Following the spec's degenerate-author policy, when the flag
is enabled every record whose author resolves to the "Unknown" sentinel is
dropped before emission; when disabled the extraction is unchanged. -/
def extract_comments_skip (elems : List CommentElem) (maxComments : Nat)
    (includeReplies skipUnknown : Bool) : List CommentRecord :=
  if skipUnknown then
    (extract_comments elems maxComments includeReplies).filter
      (fun r => r.username ≠ "Unknown")
  else extract_comments elems maxComments includeReplies

theorem extractTop_mem_extractList (incl : Bool) :
    ∀ (l : List CommentElem) (c : CommentElem), c ∈ l →
      extractTop c ∈ extractList incl l := by
  intro l
  induction l with
  | nil => intro c h; cases h
  | cons c2 rest ih =>
    intro c h
    simp only [extractList, List.cons_append, List.mem_cons, List.mem_append]
    rcases List.mem_cons.mp h with h | h
    · exact Or.inl (by rw [h])
    · exact Or.inr (Or.inr (ih c h))

/-- C6: with the skip-unknown filter enabled, no record whose author resolved to
the "Unknown" sentinel appears in the output of `extract_comments_skip`; with
the filter disabled the output is the unfiltered extraction, in which a
container with an absent username element is emitted with author "Unknown". -/
theorem extract_skip_unknown_filters (elems : List CommentElem) (maxComments : Nat)
    (includeReplies : Bool) :
    (∀ r ∈ extract_comments_skip elems maxComments includeReplies true,
      r.username ≠ "Unknown") ∧
    extract_comments_skip elems maxComments includeReplies false
      = extract_comments elems maxComments includeReplies ∧
    (∀ c ∈ elems.take maxComments, c.username = none →
      (extractTop c).username = "Unknown" ∧
      extractTop c ∈ extract_comments_skip elems maxComments includeReplies false) := by
  refine ⟨?_, rfl, ?_⟩
  · intro r hr
    simp only [extract_comments_skip, if_true] at hr
    have := List.of_mem_filter hr
    simpa using this
  · intro c hc hu
    constructor
    · simp [extractTop, hu]
    · simpa [extract_comments_skip, extract_comments] using
        extractTop_mem_extractList includeReplies (elems.take maxComments) c hc

/-- Concrete top-level container whose username element is absent. -/
def demoUnknownElem : CommentElem :=
  { username := none, text := some "hi", likes := none, time := none,
    repliesLabel := none, renderedReplies := [], repliesAfterClick := [] }

/-- C6 witness: the skip-unknown theorem applied to a one-container DOM whose
author resolves to "Unknown". -/
theorem extract_skip_unknown_filters_witness :
    (extractTop demoUnknownElem).username = "Unknown" ∧
    extractTop demoUnknownElem ∈ extract_comments_skip [demoUnknownElem] 5 true false :=
  (extract_skip_unknown_filters [demoUnknownElem] 5 true).2.2 demoUnknownElem
    (by decide) rfl

/-- Characters `str.strip()` removes: the ASCII range of Python's
`str.isspace` — tab through carriage return (0x09-0x0d), the separators
0x1c-0x1f, and the space. -/
def pyStrSpace (c : Char) : Bool :=
  (0x09 ≤ c.toNat && c.toNat ≤ 0x0d) || (0x1c ≤ c.toNat && c.toNat ≤ 0x1f) ||
    c.toNat = 0x20

/-- Surrounding characters `float()` tolerates: tab through carriage return
(0x09-0x0d) and the space — a strict subset of what `str.strip()` removes
(0x1c-0x1f stay and make the conversion fail). -/
def pyFloatSpace (c : Char) : Bool :=
  (0x09 ≤ c.toNat && c.toNat ≤ 0x0d) || c.toNat = 0x20

/-- Python `str.strip()` (helpers.py:148): whitespace removed from both ends. -/
def pyStrip (s : String) : String :=
  String.mk (((s.data.dropWhile pyStrSpace).reverse.dropWhile pyStrSpace).reverse)

/-- Suffix handling of `format_number` (helpers.py:151-160): one trailing
K/k, M/m or B/b selects the multiplier and is sliced off; any other ending
leaves the string untouched with multiplier 1. -/
def stripSuffixMult (s : String) : String × Nat :=
  match s.data.getLast? with
  | some 'K' => (String.mk s.data.dropLast, 1000)
  | some 'k' => (String.mk s.data.dropLast, 1000)
  | some 'M' => (String.mk s.data.dropLast, 1000000)
  | some 'm' => (String.mk s.data.dropLast, 1000000)
  | some 'B' => (String.mk s.data.dropLast, 1000000000)
  | some 'b' => (String.mk s.data.dropLast, 1000000000)
  | _ => (s, 1)

/-- One maximal run of digits allowing single underscores between digits, the
`digitpart` of the numeral grammar accepted by Python `float()` (underscores
must be surrounded by digits); returns the digits with underscores removed and
the unconsumed remainder. -/
def digitRun : List Char → (List Char × List Char)
  | [] => ([], [])
  | '_' :: c :: rest =>
    if c.isDigit then
      let p := digitRun rest
      (c :: p.1, p.2)
    else ([], '_' :: c :: rest)
  | c :: rest =>
    if c.isDigit then
      let p := digitRun rest
      (c :: p.1, p.2)
    else ([], c :: rest)

/-- A `digitpart`: at least one digit, then `digitRun`; `none` when the input
does not start with a digit. -/
def digitPart (cs : List Char) : Option (List Char × List Char) :=
  match cs with
  | c :: rest =>
    if c.isDigit then
      let p := digitRun rest
      some (c :: p.1, p.2)
    else none
  | [] => none

/-- An optional `digitpart`: empty digit list when absent. -/
def optDigitPart (cs : List Char) : List Char × List Char :=
  match digitPart cs with
  | some p => p
  | none => ([], cs)

/-- Exponent following `e`/`E` in a `float()` numeral: optional sign and a
nonempty digitpart consuming the whole remainder. -/
def parseExp (cs : List Char) : Option Int :=
  let signed : Bool × List Char :=
    match cs with
    | '-' :: rest => (true, rest)
    | '+' :: rest => (false, rest)
    | l => (false, l)
  match digitPart signed.2 with
  | some (ds, []) =>
    some (if signed.1 then -(digitsToNat ds : Int) else (digitsToNat ds : Int))
  | _ => none

/-- Result of Python `float()` on a string: a finite value, kept exact as the
signed decimal fraction ± m / 10 ^ k, an infinity, or a nan. -/
inductive PyFloat where
  | finite (neg : Bool) (m k : Nat)
  | infinite (neg : Bool)
  | nan
deriving DecidableEq, Repr

/-- Exact magnitude at and beyond which binary64 round-to-nearest-even yields
an infinity: the midpoint between the largest finite double and 2 ^ 1024. -/
def doubleInfThreshold : Nat := 2 ^ 1024 - 2 ^ 970

/-- Rounding of the exact value ± m / 10 ^ k into the double range: magnitudes
at or beyond `doubleInfThreshold` become the corresponding infinity (so
`float("1e400")` is `inf`, as in the Python runtime); finite magnitudes are
kept exact — the binary64 rounding of in-range values is not modelled, which
does not affect the claimed vectors. -/
def classifyDouble (neg : Bool) (m k : Nat) : PyFloat :=
  if doubleInfThreshold * 10 ^ k ≤ m then PyFloat.infinite neg
  else PyFloat.finite neg m k

/-- Exact value of a parsed numeral ± m0 / 10 ^ k0 · 10 ^ e, brought to the
form ± m / 10 ^ k by folding the exponent into the mantissa or the scale, then
rounded into the double range. -/
def finiteOfParts (neg : Bool) (m0 k0 : Nat) (e : Int) : PyFloat :=
  if 0 ≤ e then classifyDouble neg (m0 * 10 ^ e.toNat) k0
  else classifyDouble neg m0 (k0 + (-e).toNat)

/-- Finite-numeral grammar of `float()` after the sign: `digitpart`, optional
dot with optional fraction digitpart (at least one digit overall), optional
`e`/`E` exponent, nothing left over; every other string is a `ValueError`. -/
def pyFloatFinite (neg : Bool) (cs : List Char) : Option PyFloat :=
  let p1 := optDigitPart cs
  let p2 : List Char × List Char :=
    match p1.2 with
    | '.' :: tail => optDigitPart tail
    | _ => ([], p1.2)
  if p1.1.isEmpty && p2.1.isEmpty then none
  else
    match p2.2 with
    | [] =>
      some (finiteOfParts neg (digitsToNat (p1.1 ++ p2.1)) p2.1.length 0)
    | 'e' :: tail =>
      match parseExp tail with
      | some e => some (finiteOfParts neg (digitsToNat (p1.1 ++ p2.1)) p2.1.length e)
      | none => none
    | 'E' :: tail =>
      match parseExp tail with
      | some e => some (finiteOfParts neg (digitsToNat (p1.1 ++ p2.1)) p2.1.length e)
      | none => none
    | _ => none

/-- Python `float()` on a string (helpers.py:164): surrounding whitespace is
ignored; after an optional sign, the case-insensitive spellings inf, infinity
and nan are accepted, else the finite numeral grammar applies; `none` is the
`ValueError` branch. Faithful on ASCII strings; the interpreter additionally
transliterates non-ASCII decimal digits and Unicode spaces before parsing
(e.g. Arabic-Indic or full-width digits), which is outside the modelled
domain. -/
def pyFloat (s : String) : Option PyFloat :=
  let cs := ((s.data.dropWhile pyFloatSpace).reverse.dropWhile pyFloatSpace).reverse
  let signed : Bool × List Char :=
    match cs with
    | '-' :: rest => (true, rest)
    | '+' :: rest => (false, rest)
    | l => (false, l)
  let low := signed.2.map Char.toLower
  if low = ['i', 'n', 'f'] ∨ low = ['i', 'n', 'f', 'i', 'n', 'i', 't', 'y'] then
    some (PyFloat.infinite signed.1)
  else if low = ['n', 'a', 'n'] then
    some PyFloat.nan
  else
    pyFloatFinite signed.1 signed.2

deriving instance DecidableEq for Except

/-- `format_number` (helpers.py:134-166): empty and "Unknown" inputs short-cut
to 0; otherwise the stripped input loses one abbreviation suffix and
`int(float(num_str) * multiplier)` is computed. A `float()` parse failure is a
`ValueError`, caught (0); a nan makes `int()` raise `ValueError`, caught (0); an
infinity — from an inf spelling, an overflowing numeral, or an overflowing
multiplication — makes `int()` raise `OverflowError`, which the
`except (ValueError, TypeError)` at helpers.py:165 does not catch, so it
escapes (`Except.error`). -/
def format_number (s : String) : Except String Int :=
  if s = "" ∨ s = "Unknown" then Except.ok 0
  else
    match pyFloat (stripSuffixMult (pyStrip s)).1 with
    | none => Except.ok 0
    | some PyFloat.nan => Except.ok 0
    | some (PyFloat.infinite _) => Except.error "OverflowError"
    | some (PyFloat.finite neg m k) =>
      if doubleInfThreshold * 10 ^ k ≤ m * (stripSuffixMult (pyStrip s)).2 then
        Except.error "OverflowError"
      else
        let n : Nat := m * (stripSuffixMult (pyStrip s)).2 / 10 ^ k
        Except.ok (if neg then -(n : Int) else (n : Int))

set_option maxRecDepth 8192 in
/-- Acceptance and error cases of the embedded `float()` pipeline beyond the
claimed vectors: scientific notation and digit-grouping underscores parse to
their values, an inf spelling escapes as the uncaught `OverflowError`, and a
nan yields 0 through the caught `ValueError` of `int(nan)`. -/
theorem format_number_accepts_float_grammar :
    format_number "1e3" = Except.ok 1000 ∧
    format_number "1_000" = Except.ok 1000 ∧
    format_number "inf" = Except.error "OverflowError" ∧
    format_number "-Infinity" = Except.error "OverflowError" ∧
    format_number "nan" = Except.ok 0 := by
  refine ⟨by decide, by decide, by decide, by decide, by decide⟩

set_option maxRecDepth 8192 in
/-- C8: the stated parsing vector of `format_number`, and in general any ASCII
input whose numeric core `float()` rejects (the `ValueError` branch) yields 0
instead of an error; inputs whose core is an infinity escape instead with the
uncaught `OverflowError` (see `format_number_accepts_float_grammar`). -/
theorem format_number_vectors :
    format_number "1.2K" = Except.ok 1200 ∧
    format_number "4.5M" = Except.ok 4500000 ∧
    format_number "" = Except.ok 0 ∧
    format_number "Unknown" = Except.ok 0 ∧
    (∀ s : String, (∀ c ∈ s.data, c.toNat ≤ 127) →
      pyFloat (stripSuffixMult (pyStrip s)).1 = none →
      format_number s = Except.ok 0) := by
  refine ⟨by decide, by decide, by decide, by decide, ?_⟩
  intro s _ h
  by_cases h0 : s = "" ∨ s = "Unknown"
  · simp [format_number, h0]
  · simp [format_number, h0, h]

/-- C8 witness: the unparsable-input clause applied to the concrete ASCII
string "N/A". -/
theorem format_number_vectors_witness :
    (∀ c ∈ ("N/A" : String).data, c.toNat ≤ 127) ∧
    pyFloat (stripSuffixMult (pyStrip "N/A")).1 = none ∧
    format_number "N/A" = Except.ok 0 :=
  ⟨by decide, by decide, format_number_vectors.2.2.2.2 "N/A" (by decide) (by decide)⟩

/-- Events acting on the `CaptchaMonitor` state: one iteration of the monitor
thread (captcha_monitor.py:68-105) observing whether the challenge container is
present and displayed, the external `mark_solved()` signal (:52-54), and the
external `stop()` signal (:37-39). The manual `pause()`/`resume()` helpers are
not part of a detection episode and are not modelled. -/
inductive MAct where
  | tick (displayed : Bool)
  | markSolved
  | stopMonitor
deriving DecidableEq, Repr

/-- State of a `CaptchaMonitor`: the `is_running` and `is_paused` attributes,
the `captcha_solved` threading event, and `inEpisode`, the implicit program
counter of the monitor thread — `true` while it sits in the inner wait loop
(captcha_monitor.py:88-94) of a detection episode. -/
structure MonState where
  is_running : Bool
  is_paused : Bool
  solved : Bool
  inEpisode : Bool
deriving DecidableEq, Repr

/-- Transition function of the monitor. A tick inside an episode stays in the
inner loop while the monitor runs and the interstitial is displayed, and
otherwise ends the episode — setting the solved event and clearing the paused
flag (captcha_monitor.py:96-98). A tick outside an episode opens one upon a
displayed interstitial, setting the paused flag and clearing the solved event
(:78-85). `mark_solved()` only sets the solved event; `stop()` only clears
`is_running`. -/
def mStep (s : MonState) : MAct → MonState
  | MAct.markSolved => { s with solved := true }
  | MAct.stopMonitor => { s with is_running := false }
  | MAct.tick d =>
    if s.inEpisode then
      if s.is_running && d then s
      else { s with inEpisode := false, solved := true, is_paused := false }
    else if s.is_running && !s.is_paused && d then
      { s with is_paused := true, solved := false, inEpisode := true }
    else s

/-- Monitor state right after `start()` (captcha_monitor.py:25-35). -/
def mInit : MonState := ⟨true, false, false, false⟩

/-- C5 counterexample: from `mInit`, a tick with the interstitial displayed
enters a detection episode (paused); then `mark_solved()` arrives, and on the
next tick — the interstitial still displayed — the monitor is *still* paused and
still inside the episode: the external mark-solved signal does not force the
monitor back to the unpaused idle state. -/
theorem mark_solved_does_not_unpause_cex :
    (mStep mInit (MAct.tick true)).is_paused = true ∧
    (mStep mInit (MAct.tick true)).inEpisode = true ∧
    (mStep (mStep (mStep mInit (MAct.tick true)) MAct.markSolved)
      (MAct.tick true)).is_paused = true ∧
    (mStep (mStep (mStep mInit (MAct.tick true)) MAct.markSolved)
      (MAct.tick true)).inEpisode = true ∧
    (mStep (mStep (mStep mInit (MAct.tick true)) MAct.markSolved)
      (MAct.tick true)).solved = true := by
  decide

theorem mon_episode_invariant :
    ∀ (acts : List MAct) (s : MonState), s.is_running = true → s.is_paused = true →
      s.inEpisode = true →
      (∀ a ∈ acts, a = MAct.tick true ∨ a = MAct.markSolved) →
      (acts.foldl mStep s).is_running = true ∧ (acts.foldl mStep s).is_paused = true ∧
        (acts.foldl mStep s).inEpisode = true := by
  intro acts
  induction acts with
  | nil => intro s h1 h2 h3 _; exact ⟨h1, h2, h3⟩
  | cons a rest ih =>
    intro s h1 h2 h3 hacts
    have ha := hacts a (List.mem_cons_self a rest)
    have hrest : ∀ b ∈ rest, b = MAct.tick true ∨ b = MAct.markSolved :=
      fun b hb => hacts b (List.mem_cons_of_mem a hb)
    rcases ha with ha | ha
    · subst ha
      have hstep : mStep s (MAct.tick true) = s := by
        simp [mStep, h1, h3]
      simpa [List.foldl_cons, hstep] using ih s h1 h2 h3 hrest
    · subst ha
      have h1s : (mStep s MAct.markSolved).is_running = true := by simp [mStep, h1]
      have h2s : (mStep s MAct.markSolved).is_paused = true := by simp [mStep, h2]
      have h3s : (mStep s MAct.markSolved).inEpisode = true := by simp [mStep, h3]
      simpa [List.foldl_cons] using ih (mStep s MAct.markSolved) h1s h2s h3s hrest

/-- C5 (amended): once a detection episode is open (monitor paused), the paused
flag stays true across any sequence of displayed-interstitial polls and
`mark_solved()` signals — `mark_solved()` only sets the solved event and does
not end the episode — and the episode ends, clearing the paused flag and
setting the solved event, exactly when a poll observes the interstitial gone
(or the monitor is stopped). -/
theorem paused_persists_until_gone_or_stop (s : MonState) (acts : List MAct)
    (hrun : s.is_running = true) (hpau : s.is_paused = true) (hep : s.inEpisode = true)
    (hacts : ∀ a ∈ acts, a = MAct.tick true ∨ a = MAct.markSolved) :
    ((acts.foldl mStep s).is_paused = true ∧ (acts.foldl mStep s).inEpisode = true) ∧
    ((mStep s (MAct.tick false)).is_paused = false ∧
      (mStep s (MAct.tick false)).inEpisode = false ∧
      (mStep s (MAct.tick false)).solved = true) := by
  have h := mon_episode_invariant acts s hrun hpau hep hacts
  refine ⟨⟨h.2.1, h.2.2⟩, ?_, ?_, ?_⟩ <;> simp [mStep, hep]

/-- C5 witness: the amended theorem applied to a concrete detected state and the
action sequence (displayed tick, mark_solved, displayed tick). -/
theorem paused_persists_until_gone_or_stop_witness :
    (∀ a ∈ [MAct.tick true, MAct.markSolved, MAct.tick true],
      a = MAct.tick true ∨ a = MAct.markSolved) ∧
    ((([MAct.tick true, MAct.markSolved, MAct.tick true].foldl mStep
        ⟨true, true, false, true⟩).is_paused = true ∧
      ([MAct.tick true, MAct.markSolved, MAct.tick true].foldl mStep
        (⟨true, true, false, true⟩ : MonState)).inEpisode = true) ∧
    ((mStep ⟨true, true, false, true⟩ (MAct.tick false)).is_paused = false ∧
      (mStep ⟨true, true, false, true⟩ (MAct.tick false)).inEpisode = false ∧
      (mStep ⟨true, true, false, true⟩ (MAct.tick false)).solved = true)) :=
  ⟨by decide, paused_persists_until_gone_or_stop ⟨true, true, false, true⟩
    [MAct.tick true, MAct.markSolved, MAct.tick true] rfl rfl rfl (by decide)⟩
